import Mathlib

/-
Verification development for the OBDb schema repository decode pipeline.

The definitions below are a shallow embedding of the Python sources:
  src/python/can/can_frame.py        (frame parsing and ISO-TP reassembly)
  src/python/can/signals.py          (Scaling / Enumeration codecs, Filter)
  src/python/can/command_registry.py (command registry lookup and precedence)

Bytes are modelled as List Nat (each entry the value of one byte), text as
List Char or String, Python floats as rationals, Python exceptions as Except.
-/

namespace OBDb

/-! ## Frame data model (can_frame.py) -/

/-- Segments of a CAN frame used for error reporting, mirroring CANFramePart. -/
inductive CANFramePart where
  | identifier
  | extendedReceiveAddress
  | type
  | size
  | index
  | data
deriving DecidableEq, Repr

/-- Mirrors CANFrameError: a message, the offending source text, and an
optional frame part.  In the Python source the part defaults to None. -/
structure FrameError where
  message : String
  source : List Char
  part : Option CANFramePart
deriving DecidableEq, Repr

/-- Mirrors CANIDFormat. -/
inductive CANIDFormat where
  | elevenBit
  | twentyNineBit
deriving DecidableEq, Repr

/-- Mirrors DataFrameType. -/
inductive DataFrameType where
  | singleFrame
  | firstFrame
  | consecutiveFrame
  | flowControlFrame
deriving DecidableEq, Repr

/-- Mirrors DataFrameHeader: size for Single/First, sequence index for
Consecutive, nothing for FlowControl. -/
inductive FrameHeader where
  | single (size : Nat)
  | first (size : Nat)
  | consecutive (idx : Nat)
  | flow
deriving DecidableEq, Repr

/-- Mirrors CANFrame. -/
structure CANFrame where
  canIdFormat : CANIDFormat
  canIdentifier : String
  extendedReceiveAddress : Option String
  dataFrameType : DataFrameType
  header : FrameHeader
  data : List Nat
deriving DecidableEq, Repr

/-- Mirrors CANPacket. -/
structure CANPacket where
  canIdentifier : String
  extendedReceiveAddress : Option String
  data : List Nat
deriving DecidableEq, Repr

/-! ## Frame parsing (CANFrame.from_line) -/

/-- One hex digit, as accepted by Python int(c, 16) for a single character. -/
def hexDigit? (c : Char) : Option Nat :=
  if '0' ≤ c ∧ c ≤ '9' then some (c.toNat - 48)
  else if 'a' ≤ c ∧ c ≤ 'f' then some (c.toNat - 87)
  else if 'A' ≤ c ∧ c ≤ 'F' then some (c.toNat - 55)
  else none

/-- Mirrors bytes.fromhex on an even-length string with no separators:
consume two hex digits per byte, failing on any non-hex character. -/
def hexPairs? : List Char → Option (List Nat)
  | [] => some []
  | [_] => none
  | c1 :: c2 :: rest =>
    match hexDigit? c1, hexDigit? c2, hexPairs? rest with
    | some h, some l, some bs => some ((16 * h + l) :: bs)
    | _, _, _ => none

/-- Mirrors DataFrameType.from_byte.  The raised CANFrameError carries no
source and no part (both keep their defaults in the Python source). -/
def dataFrameTypeFromByte (b : Nat) : Except FrameError DataFrameType :=
  if b = 0 then .ok .singleFrame
  else if b = 1 then .ok .firstFrame
  else if b = 2 then .ok .consecutiveFrame
  else if b = 3 then .ok .flowControlFrame
  else .error ⟨"Invalid data frame type", [], none⟩

/-- Mirrors CANFrame.parse_can_identifier: 3 hex chars for 11-bit ids,
8 for 29-bit ids.  Returns the identifier and the rest of the line
(the Python source returns the index after the identifier instead). -/
def parseCanIdentifier (line : List Char) (fmt : CANIDFormat) :
    Except FrameError (String × List Char) :=
  match fmt with
  | .elevenBit =>
    if line.length < 3 then .error ⟨"Malformed CAN identifier", line, some .identifier⟩
    else .ok (⟨line.take 3⟩, line.drop 3)
  | .twentyNineBit =>
    if line.length < 8 then .error ⟨"Malformed CAN identifier", line, some .identifier⟩
    else .ok (⟨line.take 8⟩, line.drop 8)

/-- The per-type header block of from_line: Single consumes one size
nibble, First three size nibbles (12-bit size), Consecutive one index
nibble, FlowControl nothing.  The stripped line is passed along only for
the error report. -/
def parseHeader (ft : DataFrameType) (r3 : List Char) (line : List Char) :
    Except FrameError (FrameHeader × List Char) :=
  match ft with
  | .singleFrame =>
    match r3 with
    | c :: rest =>
      match hexDigit? c with
      | some n => Except.ok (FrameHeader.single n, rest)
      | none => Except.error ⟨"Invalid size", [], none⟩
    | [] => Except.error ⟨"Malformed size", line, some .size⟩
  | .firstFrame =>
    match r3 with
    | c1 :: c2 :: c3 :: rest =>
      match hexDigit? c1, hexDigit? c2, hexDigit? c3 with
      | some h1, some h2, some h3 =>
        Except.ok (FrameHeader.first (256 * h1 + 16 * h2 + h3), rest)
      | _, _, _ => Except.error ⟨"Invalid size", [], none⟩
    | _ => Except.error ⟨"Malformed size", line, some .size⟩
  | .consecutiveFrame =>
    match r3 with
    | c :: rest =>
      match hexDigit? c with
      | some n => Except.ok (FrameHeader.consecutive n, rest)
      | none => Except.error ⟨"Invalid frame index", [], none⟩
    | [] => Except.error ⟨"Malformed index", line, some .index⟩
  | .flowControlFrame => Except.ok (FrameHeader.flow, r3)

/-- Mirrors CANFrame.from_line.  The line is first stripped of whitespace;
afterwards each segment is consumed in order: identifier, optional extended
receive address, type nibble, the type-specific header, then payload data.
Note: the Python source parses the three First-frame size characters with
int(s, 16), which additionally accepts a sign character; no claim touches
that corner, and here the three characters must be plain hex digits. -/
def fromLine (rawLine : List Char) (fmt : CANIDFormat)
    (extendedAddressingEnabled : Bool) : Except FrameError CANFrame :=
  let line := rawLine.filter (fun c => !c.isWhitespace)
  match parseCanIdentifier line fmt with
  | .error e => .error e
  | .ok (canId, r1) =>
    match (if extendedAddressingEnabled then
        match r1 with
        | a :: b :: rest => Except.ok (some (String.mk [a, b]), rest)
        | _ => Except.error ⟨"Malformed extended receive address", line,
                 some .extendedReceiveAddress⟩
      else Except.ok (none, r1) :
        Except FrameError (Option String × List Char)) with
    | .error e => .error e
    | .ok (era, r2) =>
      match r2 with
      | [] => .error ⟨"Malformed type", line, some .type⟩
      | tc :: r3 =>
        match hexDigit? tc with
        | none => .error ⟨"Invalid character", [], none⟩
        | some tb =>
          match dataFrameTypeFromByte tb with
          | .error e => .error e
          | .ok ft =>
            match parseHeader ft r3 line with
            | .error e => .error e
            | .ok (hdr, r4) =>
              if r4.isEmpty then .error ⟨"Malformed data", line, some .data⟩
              else if r4.length % 2 ≠ 0 then
                .error ⟨"Malformed data (odd length)", line, some .data⟩
              else
                match hexPairs? r4 with
                | some bs => .ok ⟨fmt, canId, era, ft, hdr, bs⟩
                | none => .error ⟨"Invalid hex data", line, some .data⟩

/-! ## Packet reassembly (CANFrameScanner.__next__) -/

/-- The scanner state: the Python dict from CAN id to
(accumulated data, declared total size), as an association list. -/
abbrev PendingMap : Type := List (String × (List Nat × Nat))

def mapLookup (m : PendingMap) (k : String) : Option (List Nat × Nat) :=
  List.lookup k m

def mapInsert (m : PendingMap) (k : String) (v : List Nat × Nat) : PendingMap :=
  if (List.lookup k m).isSome then
    m.map (fun p => if p.1 = k then (k, v) else p)
  else m ++ [(k, v)]

def mapErase (m : PendingMap) (k : String) : PendingMap :=
  m.filter (fun p => p.1 ≠ k)

/-- Mirrors CANFrameScanner.__next__ iterated to exhaustion: processes the
frames in order against the pending-partial-packet state and returns the
stream of emitted packets.
Single frame: emit immediately.  First frame: start/overwrite the pending
entry.  Consecutive frame: ignored without a pending entry; otherwise append
the payload and, once the accumulated length reaches the declared size,
truncate to that size, emit, and delete the entry.  FlowControl: skipped. -/
def scanFrames : List CANFrame → PendingMap → List CANPacket
  | [], _ => []
  | f :: rest, pp =>
    match f.header with
    | .single _ => ⟨f.canIdentifier, f.extendedReceiveAddress, f.data⟩ :: scanFrames rest pp
    | .first size => scanFrames rest (mapInsert pp f.canIdentifier (f.data, size))
    | .consecutive _ =>
      match mapLookup pp f.canIdentifier with
      | none => scanFrames rest pp
      | some (acc, size) =>
        let acc2 := acc ++ f.data
        if size ≤ acc2.length then
          ⟨f.canIdentifier, f.extendedReceiveAddress, acc2.take size⟩ ::
            scanFrames rest (mapErase pp f.canIdentifier)
        else scanFrames rest (mapInsert pp f.canIdentifier (acc2, size))
    | .flow => scanFrames rest pp

/-- A First frame with the given identifier, payload and declared size
(extended addressing off, 11-bit format, as in the source fixtures). -/
def mkFirst (id : String) (d : List Nat) (size : Nat) : CANFrame :=
  ⟨.elevenBit, id, none, .firstFrame, .first size, d⟩

/-- A Consecutive frame with the given identifier and payload.  The sequence
index is irrelevant to reassembly (the scanner never reads it). -/
def mkCF (id : String) (d : List Nat) : CANFrame :=
  ⟨.elevenBit, id, none, .consecutiveFrame, .consecutive 0, d⟩

/-- True for FlowControl frames (the frames the scanner skips). -/
def isFlowFrame (f : CANFrame) : Bool :=
  match f.header with
  | .flow => true
  | _ => false

/-! ## Signal format codecs (signals.py) -/

/-- Mirrors Scaling.  Numeric parameters are rationals (Python floats);
fields irrelevant to decoding (unit, null/optimal bounds) are omitted. -/
structure Scaling where
  bitLength : Nat
  maxValue : ℚ
  bitOffset : Nat := 0
  bytesLsb : Bool := false
  signed : Bool := false
  minValue : ℚ := 0
  offset : ℚ := 0
  scalar : ℚ := 1
  divisor : ℚ := 1
deriving DecidableEq, Repr

/-- The byte-reversal step of Scaling._extract_bits when bytes_lsb is set
and the window is wider than 8 bits: reverse only the span of whole bytes
covering the bit window. -/
def reverseSection (data : List Nat) (startBit bitLength : Nat) : List Nat :=
  let startByte := startBit / 8
  let byteCount := (bitLength + 7) / 8
  let endByte := min (startByte + byteCount) data.length
  data.take startByte ++ ((data.drop startByte).take (endByte - startByte)).reverse
    ++ data.drop endByte

/-- Mirrors Scaling._extract_bits: fails when the bit window exceeds the
buffer, optionally byte-swaps the window span, then collects the bits
MSB-first (bit index 7 - i % 8 inside byte i / 8). -/
def extractBits (s : Scaling) (data : List Nat) : Except String Nat :=
  let totalBits := data.length * 8
  let startBit := s.bitOffset
  let endBit := startBit + s.bitLength
  if totalBits < endBit then Except.error "Not enough data"
  else
    let d := if s.bytesLsb ∧ s.bitLength > 8
      then reverseSection data startBit s.bitLength else data
    Except.ok ((List.range s.bitLength).foldl (fun acc j =>
      let i := startBit + j
      if Nat.testBit (d.getD (i / 8) 0) (7 - i % 8)
      then acc ||| (1 <<< (endBit - i - 1)) else acc) 0)

/-- Mirrors Scaling._twos_complement. -/
def twosComplement (value : Nat) (bits : Nat) : Int :=
  if Nat.testBit value (bits - 1) then (value : Int) - ((1 <<< bits : Nat) : Int)
  else (value : Int)

/-- Mirrors Scaling.decode_value: extract the raw bits, reinterpret as
two's-complement when signed, apply raw * scalar / divisor + offset, and
clamp into the min/max interval when max > min.  The only failure is the
range error propagated from the bit extraction (a zero divisor, which in
Python would raise a ZeroDivisionError rather than a range error, is total
division in ℚ here). -/
def Scaling.decodeValue (s : Scaling) (data : List Nat) : Except String ℚ :=
  match extractBits s data with
  | .error e => .error e
  | .ok raw =>
    let rawValue : Int := if s.signed then twosComplement raw s.bitLength else (raw : Int)
    let value : ℚ := (rawValue : ℚ) * s.scalar / s.divisor + s.offset
    let value : ℚ := if s.minValue < s.maxValue
      then max s.minValue (min value s.maxValue) else value
    .ok value

/-- Mirrors EnumerationValue. -/
structure EnumerationValue where
  value : String
  description : String
deriving DecidableEq, Repr

/-- Mirrors Enumeration; the Python dict is an association list keyed by the
decimal string of a raw value. -/
structure Enumeration where
  bitLength : Nat
  map : List (String × EnumerationValue)
  bitOffset : Nat := 0
deriving DecidableEq, Repr

/-- The raw-integer extraction inside Enumeration.decode_value: bits are
collected MSB-first, and a bit whose byte index falls beyond the end of the
buffer contributes 0 (the guard byte_idx < len(data) in the source). -/
def enumRawValue (e : Enumeration) (data : List Nat) : Nat :=
  (List.range e.bitLength).foldl (fun acc i =>
    let byteIdx := (e.bitOffset + i) / 8
    let bitIdx := 7 - (e.bitOffset + i) % 8
    if byteIdx < data.length ∧ Nat.testBit (data.getD byteIdx 0) bitIdx
    then acc ||| (1 <<< (e.bitLength - i - 1)) else acc) 0

/-- Mirrors Enumeration.decode_value: render the raw value as a decimal
string, look it up in the map, and return the mapped display value, or
none when no mapping exists (never the raw number). -/
def Enumeration.decodeValue (e : Enumeration) (data : List Nat) : Option String :=
  let strValue := toString (enumRawValue e data)
  match List.lookup strValue e.map with
  | some v => some v.value
  | none => none

/-! ## Year filter (signals.py) -/

/-- Mirrors Filter; the years set is an association-free list. -/
structure Filter where
  fromYear : Option Int := none
  toYear : Option Int := none
  years : Option (List Int) := none
deriving DecidableEq, Repr

/-- Mirrors Filter.matches.  A None model year never matches.  With both
bounds set: a from < to range is inclusive on both ends, otherwise the
wraparound test year ≥ from or year ≤ to applies.  A single bound is a
one-sided comparison.  When no range branch returned true, the explicit
years set is consulted; otherwise the result is false. -/
def Filter.matches (f : Filter) (modelYear : Option Int) : Bool :=
  match modelYear with
  | none => false
  | some y =>
    let rangeHit : Bool :=
      match f.fromYear, f.toYear with
      | some fy, some ty =>
        if fy < ty then decide (fy ≤ y ∧ y ≤ ty)
        else decide (y ≥ fy ∨ y ≤ ty)
      | none, some ty => decide (y ≤ ty)
      | some fy, none => decide (y ≥ fy)
      | none, none => false
    if rangeHit then true
    else
      match f.years with
      | some ys => decide (y ∈ ys)
      | none => false

/-! ## Command model and registry (signals.py, command_registry.py) -/

/-- Mirrors ParameterType: the enum values are the service strings
"01", "21", "22". -/
inductive ParameterType where
  | service01
  | service21
  | service22
deriving DecidableEq, Repr

/-- The integer the registry obtains with int(type.value, 16). -/
def serviceIdOf : ParameterType → Nat
  | .service01 => 0x01
  | .service21 => 0x21
  | .service22 => 0x22

/-- Mirrors Parameter. -/
structure Parameter where
  type : ParameterType
  value : Nat
deriving DecidableEq, Repr

/-- Mirrors Signal, keeping the fields the registry reads. -/
structure Signal where
  id : String
  name : String
  format : Sum Scaling Enumeration
deriving DecidableEq, Repr

/-- Mirrors Command, keeping the fields the registry reads. -/
structure Command where
  id : String
  parameter : Parameter
  header : Nat
  receiveAddress : Option Nat
  signals : List Signal
  filter : Option Filter := none
deriving DecidableEq, Repr

/-- Python f-string {n:X}: uppercase hex digits, no leading zeros, for a
positive argument; the empty digit string for 0. -/
def hexDigitUpper (d : Nat) : Char :=
  if d < 10 then Char.ofNat (48 + d) else Char.ofNat (55 + d)

/-- Digit accumulation for natToHexUpper, structurally recursive on a fuel
bound (any fuel at least n produces the digits of n). -/
def toHexCharsAux (fuel n : Nat) : List Char :=
  match fuel, n with
  | _, 0 => []
  | 0, _ => []
  | fuel + 1, n => toHexCharsAux fuel (n / 16) ++ [hexDigitUpper (n % 16)]

def toHexChars (n : Nat) : List Char :=
  toHexCharsAux n n

/-- Python f-string {n:X} for a natural number (0 renders as "0"). -/
def natToHexUpper (n : Nat) : String :=
  if n = 0 then "0" else ⟨toHexChars n⟩

/-- The receive-address test of the extract functions:
cmd.receive_address is not None and f-string {addr:X} equals the packet
identifier. -/
def matchesReceiveAddress (cmd : Command) (canId : String) : Bool :=
  match cmd.receiveAddress with
  | some a => natToHexUpper a == canId
  | none => false

/-- The generic-command test of the extract functions:
cmd.receive_address is None. -/
def isGenericCommand (cmd : Command) : Bool :=
  cmd.receiveAddress.isNone

/-- The bucket of CommandRegistry.commands_by_parameter for one
(service-id, parameter-value) key: the commands with that key, in
registration order (the dict groups by appending in input order). -/
def commandsByParameter (commands : List Command) (key : Nat × Nat) : List Command :=
  commands.filter (fun c =>
    serviceIdOf c.parameter.type == key.1 && c.parameter.value == key.2)

/-- The command-selection block of _extract_service_01_commands: scan the
bucket in reverse registration order, splitting into address-matching and
generic commands; take the first matching command, else the first generic
command, else nothing. -/
def service01MatchedCommands (bucket : List Command) (canId : String) : List Command :=
  let rev := bucket.reverse
  let matching := rev.filter (fun c => matchesReceiveAddress c canId)
  let generic := rev.filter isGenericCommand
  match matching with
  | c :: _ => [c]
  | [] =>
    match generic with
    | c :: _ => [c]
    | [] => []

/-- The command-selection block of _extract_service_21_commands: like
service 01 for an address match, but with no match every generic command
in the bucket is selected (matched_commands = generic_commands). -/
def service21MatchedCommands (bucket : List Command) (canId : String) : List Command :=
  let rev := bucket.reverse
  let matching := rev.filter (fun c => matchesReceiveAddress c canId)
  let generic := rev.filter isGenericCommand
  match matching with
  | c :: _ => [c]
  | [] => generic

/-- The command-selection block of _extract_service_22_commands: identical
shape to service 21 — one command on an address match, otherwise every
generic command. -/
def service22MatchedCommands (bucket : List Command) (canId : String) : List Command :=
  let rev := bucket.reverse
  let matching := rev.filter (fun c => matchesReceiveAddress c canId)
  let generic := rev.filter isGenericCommand
  match matching with
  | c :: _ => [c]
  | [] => generic

/-- Mirrors CommandRegistry.identify_commands restricted to command
selection: the commands of the returned CommandResponse list, in order.
The first payload byte must be a positive response (service + 0x40);
service 01 and 21 consume a one-byte PID/offset, service 22 a two-byte
PID, before the bucket lookup and the per-service selection above. -/
def identifyCommands (commands : List Command) (packet : CANPacket) : List Command :=
  match packet.data with
  | [] => []
  | b0 :: rest =>
    if b0 < 0x40 then []
    else
      let service := b0 - 0x40
      if service = 0x01 then
        match rest with
        | [] => []
        | pid :: _ =>
          service01MatchedCommands (commandsByParameter commands (0x01, pid))
            packet.canIdentifier
      else if service = 0x21 then
        match rest with
        | [] => []
        | offset :: _ =>
          service21MatchedCommands (commandsByParameter commands (0x21, offset))
            packet.canIdentifier
      else if service = 0x22 then
        match rest with
        | b1 :: b2 :: _ =>
          service22MatchedCommands
            (commandsByParameter commands (0x22, (b1 <<< 8) ||| b2))
            packet.canIdentifier
        | _ => []
      else []

/-! ## Concrete fixtures (from the Python test files) -/

/-- Payload of the First frame line 7E81014490201534231. -/
def ffData : List Nat := [0x49, 0x02, 0x01, 0x53, 0x42, 0x31]

/-- Payload of the Consecutive frame line 7E8215A53334A453630. -/
def cfData1 : List Nat := [0x5A, 0x53, 0x33, 0x4A, 0x45, 0x36, 0x30]

/-- Payload of the Consecutive frame line 7E82245323832313032. -/
def cfData2 : List Nat := [0x45, 0x32, 0x38, 0x32, 0x31, 0x30, 0x32]

/-- The flow-control line 7DF3010000000000 of the reassembly fixture. -/
def flowFixtureFrame : CANFrame :=
  ⟨.elevenBit, "7DF", none, .flowControlFrame, .flow, [0x01, 0, 0, 0, 0, 0]⟩

/-- A generic service-21 command (no receive-address filter). -/
def cmd21A : Command :=
  { id := "a", parameter := ⟨.service21, 0x10⟩, header := 0x7E0,
    receiveAddress := none, signals := [] }

/-- A second generic service-21 command sharing the same bucket. -/
def cmd21B : Command :=
  { id := "b", parameter := ⟨.service21, 0x10⟩, header := 0x7E0,
    receiveAddress := none, signals := [] }

/-- A service-01 command fixed to receive address 7EC. -/
def s01Specific : Command :=
  { id := "spec", parameter := ⟨.service01, 0x0C⟩, header := 0x7E0,
    receiveAddress := some 0x7EC, signals := [] }

/-- A generic service-01 command sharing the bucket of s01Specific. -/
def s01Generic : Command :=
  { id := "gen", parameter := ⟨.service01, 0x0C⟩, header := 0x7E0,
    receiveAddress := none, signals := [] }

/-- An enumeration mapping only the raw value 1. -/
def enumOn : Enumeration := { bitLength := 2, map := [("1", ⟨"ON", "on"⟩)] }

/-! ## Theorems -/

/-- C3: with both year bounds set and from_year strictly greater than
to_year, and no explicit years, Filter.matches treats the range as a
wraparound: a non-None model year matches exactly when it is at least
from_year or at most to_year. -/
theorem filter_wraparound_matches (fy ty y : Int) (h : ty < fy) :
    Filter.matches ⟨some fy, some ty, none⟩ (some y) = decide (y ≥ fy ∨ y ≤ ty) := by
  have hnot : ¬ fy < ty := by omega
  simp only [Filter.matches, hnot, if_false]
  cases hd : decide (y ≥ fy ∨ y ≤ ty) <;> simp

theorem filter_wraparound_matches_witness :
    (2015 : Int) < 2020 ∧
      Filter.matches ⟨some 2020, some 2015, none⟩ (some 2021) =
        decide ((2021 : Int) ≥ 2020 ∨ (2021 : Int) ≤ 2015) :=
  ⟨by decide, filter_wraparound_matches 2020 2015 2021 (by decide)⟩

/-- The bit extraction reads only the window fields of a Scaling (bit
length, bit offset, byte order), never the numeric transform fields. -/
theorem extractBits_window_only (s : Scaling) (data : List Nat) :
    extractBits s data =
      extractBits { bitLength := s.bitLength, maxValue := 0,
                    bitOffset := s.bitOffset, bytesLsb := s.bytesLsb } data := by
  simp only [extractBits]

/-- C6: a 16-bit signed scaling with divisor 10 (scalar 1, offset 0,
bit offset 0) decodes the bytes 01 C7 to 45.5 and the bytes FE 39 to
-45.5, for any min/max bounds that do not clamp plus or minus 45.5. -/
theorem scaling_signed_16bit_decode (mn mx : ℚ)
    (h1 : mn ≤ -(91 / 2)) (h2 : 91 / 2 ≤ mx) :
    Scaling.decodeValue
        { bitLength := 16, maxValue := mx, signed := true,
          minValue := mn, divisor := 10 } [0x01, 0xC7] = .ok (91 / 2) ∧
    Scaling.decodeValue
        { bitLength := 16, maxValue := mx, signed := true,
          minValue := mn, divisor := 10 } [0xFE, 0x39] = .ok (-(91 / 2)) := by
  have hmn : mn ≤ 91 / 2 := le_trans h1 (by norm_num)
  have hmx2 : -(91 / 2) ≤ mx := le_trans (by norm_num) h2
  constructor
  · have hx : extractBits
        { bitLength := 16, maxValue := mx, signed := true,
          minValue := mn, divisor := 10 } [0x01, 0xC7] = Except.ok 455 := by
      rw [extractBits_window_only]
      show extractBits { bitLength := 16, maxValue := 0, bitOffset := 0,
                         bytesLsb := false } [0x01, 0xC7] = Except.ok 455
      rfl
    have ht : twosComplement 455 16 = 455 := by decide
    simp only [Scaling.decodeValue, hx, ht]
    norm_num
    intro hc
    rw [min_eq_left h2, max_eq_right hmn]
  · have hx : extractBits
        { bitLength := 16, maxValue := mx, signed := true,
          minValue := mn, divisor := 10 } [0xFE, 0x39] = Except.ok 65081 := by
      rw [extractBits_window_only]
      show extractBits { bitLength := 16, maxValue := 0, bitOffset := 0,
                         bytesLsb := false } [0xFE, 0x39] = Except.ok 65081
      rfl
    have ht : twosComplement 65081 16 = -455 := by decide
    simp only [Scaling.decodeValue, hx, ht]
    norm_num
    intro hc
    rw [min_eq_left hmx2, max_eq_right h1]

theorem scaling_signed_16bit_decode_witness :
    (-780 : ℚ) ≤ -(91 / 2) ∧ (91 / 2 : ℚ) ≤ 780 ∧
    Scaling.decodeValue
        { bitLength := 16, maxValue := (780 : ℚ), signed := true,
          minValue := (-780 : ℚ), divisor := 10 } [0x01, 0xC7] = .ok (91 / 2) ∧
    Scaling.decodeValue
        { bitLength := 16, maxValue := (780 : ℚ), signed := true,
          minValue := (-780 : ℚ), divisor := 10 } [0xFE, 0x39] = .ok (-(91 / 2)) :=
  ⟨by norm_num, by norm_num,
    (scaling_signed_16bit_decode (-780) 780 (by norm_num) (by norm_num)).1,
    (scaling_signed_16bit_decode (-780) 780 (by norm_num) (by norm_num)).2⟩

/-- C7: when the decimal rendering of the extracted raw value has no entry
in the enumeration map, decode_value returns none (the absent sentinel),
never the raw numeric string. -/
theorem enumeration_unmapped_decodes_none (e : Enumeration) (data : List Nat)
    (h : List.lookup (toString (enumRawValue e data)) e.map = none) :
    e.decodeValue data = none := by
  simp only [Enumeration.decodeValue, h]

theorem enumeration_unmapped_decodes_none_witness :
    List.lookup (toString (enumRawValue enumOn [0])) enumOn.map = none ∧
      enumOn.decodeValue [0] = none :=
  ⟨by decide, enumeration_unmapped_decodes_none enumOn [0] (by decide)⟩

/-- Consecutive frames for an identifier with no pending entry are ignored:
with an empty pending map nothing is ever emitted. -/
theorem scanFrames_cf_empty_state (ds : List (List Nat)) (id : String) :
    scanFrames (ds.map (mkCF id)) [] = [] := by
  induction ds with
  | nil => rfl
  | cons d rest ih => simpa [scanFrames, mkCF, mapLookup] using ih

/-- Processing a run of Consecutive frames against a single pending entry
whose target is reached within the run emits exactly the truncated packet
and nothing afterwards. -/
theorem scanFrames_cf_consume (id : String) (ds : List (List Nat)) :
    ∀ (acc : List Nat) (size : Nat), ds ≠ [] →
      size ≤ acc.length + ds.flatten.length →
      scanFrames (ds.map (mkCF id)) [(id, (acc, size))] =
        [⟨id, none, (acc ++ ds.flatten).take size⟩] := by
  induction ds with
  | nil => intro acc size hne _; exact absurd rfl hne
  | cons d rest ih =>
    intro acc size _ hsz
    rw [List.map_cons]
    rw [show scanFrames (mkCF id d :: rest.map (mkCF id)) [(id, (acc, size))] =
        (match mapLookup [(id, (acc, size))] id with
         | none => scanFrames (rest.map (mkCF id)) [(id, (acc, size))]
         | some (acc0, size0) =>
           if size0 ≤ (acc0 ++ d).length then
             ⟨id, none, (acc0 ++ d).take size0⟩ ::
               scanFrames (rest.map (mkCF id)) (mapErase [(id, (acc, size))] id)
           else scanFrames (rest.map (mkCF id))
             (mapInsert [(id, (acc, size))] id (acc0 ++ d, size0)) : List CANPacket)
      from rfl]
    have hlook : mapLookup [(id, (acc, size))] id = some (acc, size) := by
      simp [mapLookup, List.lookup_cons]
    rw [hlook]
    dsimp only
    by_cases hle : size ≤ (acc ++ d).length
    · rw [if_pos hle]
      have herase : mapErase [(id, (acc, size))] id = [] := by
        simp [mapErase]
      rw [herase, scanFrames_cf_empty_state]
      have htake : (acc ++ d).take size = (acc ++ (d :: rest).flatten).take size := by
        rw [List.flatten_cons, show acc ++ (d ++ rest.flatten) =
            (acc ++ d) ++ rest.flatten from by simp]
        rw [List.take_append_of_le_length hle]
      rw [htake]
    · rw [if_neg hle]
      have hinsert : mapInsert [(id, (acc, size))] id (acc ++ d, size) =
          [(id, (acc ++ d, size))] := by
        simp [mapInsert, List.lookup_cons]
      rw [hinsert]
      have hdl : (acc ++ d).length = acc.length + d.length := by simp
      have hrest : rest ≠ [] := by
        rcases rest with _ | ⟨r, rs⟩
        · exfalso
          simp only [List.flatten_cons, List.flatten_nil, List.append_nil,
            List.length_append] at hsz
          omega
        · exact List.cons_ne_nil _ _
      have hsz2 : size ≤ (acc ++ d).length + rest.flatten.length := by
        simp only [List.flatten_cons, List.length_append] at hsz ⊢
        omega
      rw [ih (acc ++ d) size hrest hsz2]
      rw [show (acc ++ d) ++ rest.flatten = acc ++ (d :: rest).flatten from by simp]

/-- C1: a First frame followed by Consecutive frames for the same
identifier whose accumulated payload reaches or exceeds the declared size
yields exactly one packet, whose payload is the accumulated bytes
truncated to exactly the declared size; the pending state is cleared on
emission, so the remaining Consecutive frames of the run produce nothing. -/
theorem first_consecutive_reassembly (id : String) (d0 : List Nat) (size : Nat)
    (cfs : List (List Nat)) (h1 : cfs ≠ [])
    (h2 : size ≤ (d0 ++ cfs.flatten).length) :
    scanFrames (mkFirst id d0 size :: cfs.map (mkCF id)) [] =
      [⟨id, none, (d0 ++ cfs.flatten).take size⟩] := by
  rw [show scanFrames (mkFirst id d0 size :: cfs.map (mkCF id)) [] =
      scanFrames (cfs.map (mkCF id)) (mapInsert [] id (d0, size)) from rfl]
  have hins : mapInsert ([] : PendingMap) id (d0, size) = [(id, (d0, size))] := by
    simp [mapInsert]
  rw [hins]
  exact scanFrames_cf_consume id cfs d0 size h1 (by simpa using h2)

theorem first_consecutive_reassembly_witness :
    ([cfData1, cfData2] : List (List Nat)) ≠ [] ∧
    20 ≤ (ffData ++ ([cfData1, cfData2] : List (List Nat)).flatten).length ∧
    scanFrames (mkFirst "7E8" ffData 20 :: ([cfData1, cfData2] : List (List Nat)).map
        (mkCF "7E8")) [] =
      [⟨"7E8", none, (ffData ++ ([cfData1, cfData2] : List (List Nat)).flatten).take 20⟩] :=
  ⟨by decide, by decide,
    first_consecutive_reassembly "7E8" ffData 20 [cfData1, cfData2]
      (by decide) (by decide)⟩

/-- C8: removing every FlowControl frame from a frame sequence leaves the
emitted packet sequence unchanged (so inserting or removing FlowControl
frames at any position has no effect on reassembly); in particular the
four-line fixture with the flow-control line between the First and
Consecutive frames reassembles exactly like the sequence without it. -/
theorem flow_control_frames_ignored :
    (∀ (frames : List CANFrame) (pp : PendingMap),
        scanFrames (frames.filter (fun f => !isFlowFrame f)) pp =
          scanFrames frames pp) ∧
    scanFrames [mkFirst "7E8" ffData 20, flowFixtureFrame,
        mkCF "7E8" cfData1, mkCF "7E8" cfData2] [] =
      scanFrames [mkFirst "7E8" ffData 20,
        mkCF "7E8" cfData1, mkCF "7E8" cfData2] [] := by
  constructor
  · intro frames
    induction frames with
    | nil => intro pp; rfl
    | cons f rest ih =>
      intro pp
      cases hh : f.header with
      | flow =>
        have hff : isFlowFrame f = true := by simp [isFlowFrame, hh]
        rw [List.filter_cons_of_neg (by simp [hff])]
        rw [show scanFrames (f :: rest) pp = scanFrames rest pp from by
          rw [scanFrames, hh]]
        exact ih pp
      | single s =>
        have hff : isFlowFrame f = false := by simp [isFlowFrame, hh]
        rw [List.filter_cons_of_pos (by simp [hff])]
        rw [scanFrames, scanFrames, hh]
        dsimp only
        rw [ih pp]
      | first s =>
        have hff : isFlowFrame f = false := by simp [isFlowFrame, hh]
        rw [List.filter_cons_of_pos (by simp [hff])]
        rw [scanFrames, scanFrames, hh]
        dsimp only
        rw [ih]
      | consecutive i =>
        have hff : isFlowFrame f = false := by simp [isFlowFrame, hh]
        rw [List.filter_cons_of_pos (by simp [hff])]
        rw [scanFrames, scanFrames, hh]
        dsimp only
        cases hl : mapLookup pp f.canIdentifier with
        | none => rw [ih]
        | some v =>
          rcases v with ⟨acc, size⟩
          dsimp only
          simp only [ih]
  · decide

/-- Scanning a bucket in reverse registration order and taking the first
entry satisfying a predicate selects the most recently registered
satisfying entry. -/
theorem reverse_filter_head (p : Command → Bool) (bucket : List Command) :
    (bucket.reverse.filter p).head? = (bucket.filter p).getLast? := by
  rw [List.filter_reverse, List.head?_reverse]

/-- C2 (amended): within a (service, parameter) bucket, an address match
selects exactly the most recently registered command whose fixed receive
address matches the packet identifier, for all three services; with no
address match, service 01 selects only the most recently registered
generic command, while services 21 and 22 select every generic command in
the bucket (most recent first).  The spec fixture follows: a specific
receive-address 7EC command beats the generic one for packets from 7EC,
and any other identifier falls back to the generic command. -/
theorem registry_bucket_precedence :
    (∀ (bucket : List Command) (canId : String),
      (service01MatchedCommands bucket canId =
        match (bucket.filter (fun c => matchesReceiveAddress c canId)).getLast? with
        | some c => [c]
        | none =>
          match (bucket.filter isGenericCommand).getLast? with
          | some c => [c]
          | none => []) ∧
      (service21MatchedCommands bucket canId =
        match (bucket.filter (fun c => matchesReceiveAddress c canId)).getLast? with
        | some c => [c]
        | none => (bucket.filter isGenericCommand).reverse) ∧
      (service22MatchedCommands bucket canId =
        match (bucket.filter (fun c => matchesReceiveAddress c canId)).getLast? with
        | some c => [c]
        | none => (bucket.filter isGenericCommand).reverse)) ∧
    identifyCommands [s01Generic, s01Specific] ⟨"7EC", none, [0x41, 0x0C, 0x1A]⟩ =
      [s01Specific] ∧
    identifyCommands [s01Generic, s01Specific] ⟨"7FF", none, [0x41, 0x0C, 0x1A]⟩ =
      [s01Generic] := by
  refine ⟨?_, by rfl, by rfl⟩
  intro bucket canId
  have hm := reverse_filter_head (fun c => matchesReceiveAddress c canId) bucket
  have hg := reverse_filter_head isGenericCommand bucket
  have hgr : bucket.reverse.filter isGenericCommand =
      (bucket.filter isGenericCommand).reverse := List.filter_reverse _ _
  refine ⟨?_, ?_, ?_⟩
  · simp only [service01MatchedCommands]
    rw [← hm, ← hg]
    rcases hrm : bucket.reverse.filter (fun c => matchesReceiveAddress c canId) with
      _ | ⟨c, cs⟩ <;>
      rcases hrg : bucket.reverse.filter isGenericCommand with _ | ⟨g, gs⟩ <;>
      rfl
  · simp only [service21MatchedCommands]
    rw [← hm, ← hgr]
    rcases hrm : bucket.reverse.filter (fun c => matchesReceiveAddress c canId) with
      _ | ⟨c, cs⟩ <;> rfl
  · simp only [service22MatchedCommands]
    rw [← hm, ← hgr]
    rcases hrm : bucket.reverse.filter (fun c => matchesReceiveAddress c canId) with
      _ | ⟨c, cs⟩ <;> rfl

/-- C2 counterexample: for service 21 a bucket of two generic commands and
a packet with no address match selects both commands (most recent first),
not exactly one. -/
theorem service21_selects_all_generics :
    identifyCommands [cmd21A, cmd21B] ⟨"7E8", none, [0x61, 0x10, 0xAA]⟩ =
      [cmd21B, cmd21A] := by rfl

/-- The sixteen uppercase hex digit characters. -/
def hexUpperChars : List Char :=
  ['0', '1', '2', '3', '4', '5', '6', '7', '8', '9', 'A', 'B', 'C', 'D', 'E', 'F']

/-- True when the string has a lowercase hex letter. -/
def hasLowercaseHex (s : String) : Bool :=
  s.toList.any (fun c => decide ('a' ≤ c ∧ c ≤ 'f'))

/-- True when the string starts with the digit 0 followed by more text. -/
def hasLeadingZero (s : String) : Bool :=
  match s.toList with
  | c :: _ :: _ => c == '0'
  | _ => false

theorem hexDigitUpper_mem (d : Nat) (h : d < 16) : hexDigitUpper d ∈ hexUpperChars := by
  interval_cases d <;> decide

theorem hexDigitUpper_ne_zero (d : Nat) (h1 : d < 16) (h2 : d ≠ 0) :
    hexDigitUpper d ≠ '0' := by
  interval_cases d
  · exact absurd rfl h2
  all_goals decide

theorem toHexCharsAux_mem (fuel : Nat) :
    ∀ n, n ≤ fuel → ∀ c ∈ toHexCharsAux fuel n, c ∈ hexUpperChars := by
  induction fuel with
  | zero =>
    intro n hn c hc
    have hz : n = 0 := Nat.le_zero.mp hn
    subst hz
    simp [toHexCharsAux] at hc
  | succ fuel ih =>
    intro n hn c hc
    match n with
    | 0 => simp [toHexCharsAux] at hc
    | m + 1 =>
      rw [show toHexCharsAux (fuel + 1) (m + 1) =
          toHexCharsAux fuel ((m + 1) / 16) ++ [hexDigitUpper ((m + 1) % 16)]
        from rfl] at hc
      rcases List.mem_append.mp hc with h | h
      · have hlt : (m + 1) / 16 < m + 1 := Nat.div_lt_self (Nat.succ_pos m) (by decide)
        exact ih ((m + 1) / 16) (by omega) c h
      · rw [List.mem_singleton.mp h]
        exact hexDigitUpper_mem _ (Nat.mod_lt _ (by decide))

theorem toHexCharsAux_ne_nil (fuel n : Nat) (h2 : n ≠ 0) (h1 : n ≤ fuel) :
    toHexCharsAux fuel n ≠ [] := by
  match fuel, n with
  | 0, n => omega
  | fuel + 1, m + 1 =>
    rw [show toHexCharsAux (fuel + 1) (m + 1) =
        toHexCharsAux fuel ((m + 1) / 16) ++ [hexDigitUpper ((m + 1) % 16)] from rfl]
    simp

theorem toHexCharsAux_head_ne_zero (fuel : Nat) :
    ∀ n, n ≠ 0 → n ≤ fuel →
      ∀ c, (toHexCharsAux fuel n).head? = some c → c ≠ '0' := by
  induction fuel with
  | zero => intro n h1 h2; omega
  | succ fuel ih =>
    intro n h1 h2 c hc
    match n with
    | m + 1 =>
      rw [show toHexCharsAux (fuel + 1) (m + 1) =
          toHexCharsAux fuel ((m + 1) / 16) ++ [hexDigitUpper ((m + 1) % 16)]
        from rfl] at hc
      by_cases hq : (m + 1) / 16 = 0
      · have hlt16 : m + 1 < 16 := (Nat.div_eq_zero_iff (by decide)).mp hq
        rw [hq] at hc
        simp only [toHexCharsAux, List.nil_append, List.head?_cons,
          Option.some.injEq] at hc
        rw [← hc]
        have hmod : (m + 1) % 16 = m + 1 := Nat.mod_eq_of_lt hlt16
        rw [hmod]
        exact hexDigitUpper_ne_zero _ hlt16 (Nat.succ_ne_zero m)
      · have hlt : (m + 1) / 16 < m + 1 := Nat.div_lt_self (Nat.succ_pos m) (by decide)
        have hne := toHexCharsAux_ne_nil fuel ((m + 1) / 16) hq (by omega)
        rw [List.head?_append_of_ne_nil _ hne] at hc
        exact ih ((m + 1) / 16) hq (by omega) c hc

theorem upperChar_not_lower :
    ∀ c ∈ hexUpperChars, decide ('a' ≤ c ∧ c ≤ 'f') = false := by decide

/-- The Python {n:X} rendering has only uppercase hex digits and never a
leading zero. -/
theorem natToHexUpper_wellformed (n : Nat) :
    hasLowercaseHex (natToHexUpper n) = false ∧
      hasLeadingZero (natToHexUpper n) = false := by
  by_cases hz : n = 0
  · subst hz; exact ⟨by decide, by decide⟩
  · have hne : natToHexUpper n = ⟨toHexChars n⟩ := by
      simp [natToHexUpper, hz]
    rw [hne]
    have hlist : (⟨toHexChars n⟩ : String).toList = toHexChars n := rfl
    constructor
    · rw [hasLowercaseHex, hlist, List.any_eq_false]
      intro c hc
      have := toHexCharsAux_mem n n le_rfl c hc
      simp only [upperChar_not_lower c this, Bool.false_eq_true, not_false_iff]
    · rw [hasLeadingZero]
      rw [hlist]
      rcases hl : toHexChars n with _ | ⟨c, rest⟩
      · rfl
      · rcases rest with _ | ⟨c2, rest2⟩
        · rfl
        · have hhead : (toHexCharsAux n n).head? = some c := by
            rw [show toHexChars n = toHexCharsAux n n from rfl] at hl
            rw [hl]; rfl
          have := toHexCharsAux_head_ne_zero n n hz le_rfl c hhead
          exact beq_eq_false_iff_ne.mpr this

/-- C10: the registry address match holds exactly when the packet
identifier equals the uppercase, no-leading-zero hex rendering of the
command receive address; an identifier with a leading zero or a lowercase
hex letter can never equal such a rendering, so the selection never picks
an address-specific command for it. -/
theorem receive_address_match_rendering :
    (∀ (cmd : Command) (a : Nat) (canId : String), cmd.receiveAddress = some a →
        (matchesReceiveAddress cmd canId = true ↔ natToHexUpper a = canId)) ∧
    (∀ (canId : String),
        hasLeadingZero canId = true ∨ hasLowercaseHex canId = true →
        (∀ a : Nat, natToHexUpper a ≠ canId) ∧
        (∀ (bucket : List Command) (c : Command),
            c ∈ service01MatchedCommands bucket canId → c.receiveAddress = none) ∧
        (∀ (bucket : List Command) (c : Command),
            c ∈ service22MatchedCommands bucket canId → c.receiveAddress = none)) := by
  constructor
  · intro cmd a canId h
    rw [matchesReceiveAddress, h]
    exact beq_iff_eq
  · intro canId hbad
    have hno : ∀ a : Nat, natToHexUpper a ≠ canId := by
      intro a heq
      have hw := natToHexUpper_wellformed a
      rw [heq] at hw
      rcases hbad with hb | hb
      · rw [hw.2] at hb; exact Bool.false_ne_true hb
      · rw [hw.1] at hb; exact Bool.false_ne_true hb
    have hnomatch : ∀ cmd : Command, matchesReceiveAddress cmd canId = false := by
      intro cmd
      rw [matchesReceiveAddress]
      cases h : cmd.receiveAddress with
      | none => rfl
      | some a => exact beq_eq_false_iff_ne.mpr (hno a)
    have hgen : ∀ (bucket : List Command) (c : Command),
        c ∈ bucket.reverse.filter isGenericCommand → c.receiveAddress = none := by
      intro bucket c hc
      have := List.of_mem_filter hc
      rwa [isGenericCommand, Option.isNone_iff_eq_none] at this
    have hemp : ∀ bucket : List Command,
        bucket.reverse.filter (fun c => matchesReceiveAddress c canId) = [] := by
      intro bucket
      exact List.filter_eq_nil_iff.mpr (fun x _ => by simp [hnomatch x])
    refine ⟨hno, ?_, ?_⟩
    · intro bucket c hc
      simp only [service01MatchedCommands, hemp] at hc
      rcases hg : bucket.reverse.filter isGenericCommand with _ | ⟨g, gs⟩
      · rw [hg] at hc; simp at hc
      · rw [hg] at hc
        rw [List.mem_singleton.mp hc]
        exact hgen bucket g (hg ▸ List.mem_cons_self g gs)
    · intro bucket c hc
      simp only [service22MatchedCommands, hemp] at hc
      exact hgen bucket c hc

theorem receive_address_match_rendering_witness :
    hasLeadingZero "07E8" = true ∧ natToHexUpper 0x7E8 ≠ "07E8" :=
  ⟨by decide, (receive_address_match_rendering.2 "07E8" (Or.inl (by decide))).1 0x7E8⟩

/-- A character accepted as a hex digit is never whitespace. -/
theorem hexDigit_not_ws (c : Char) (n : Nat) (h : hexDigit? c = some n) :
    c.isWhitespace = false := by
  by_contra hws
  rw [Bool.not_eq_false] at hws
  simp only [Char.isWhitespace, Bool.or_eq_true, decide_eq_true_eq] at hws
  rcases hws with ((rfl | rfl) | rfl) | rfl <;> simp +decide [hexDigit?] at h

/-- An 11-bit identifier parse on a line of at least three characters
consumes exactly the first three. -/
theorem parseCanIdentifier_cons3 (c1 c2 c3 : Char) (rest : List Char) :
    parseCanIdentifier (c1 :: c2 :: c3 :: rest) .elevenBit =
      Except.ok (⟨[c1, c2, c3]⟩, rest) := by
  have h3 : ¬ (c1 :: c2 :: c3 :: rest).length < 3 := by
    simp only [List.length_cons]; omega
  simp only [parseCanIdentifier, if_neg h3]
  rfl

/-- bytes.fromhex succeeds on every even-length all-hex character list. -/
theorem hexPairs_total : ∀ (ds : List Char), ds.length % 2 = 0 →
    (∀ c ∈ ds, (hexDigit? c).isSome) → (hexPairs? ds).isSome = true
  | [], _, _ => rfl
  | [c], h, _ => by
    simp only [List.length_singleton] at h
    exact absurd h (by decide)
  | c1 :: c2 :: rest, h, hall => by
    have h1 := hall c1 (by simp)
    have h2 := hall c2 (by simp [List.mem_cons])
    rcases Option.isSome_iff_exists.mp h1 with ⟨n1, e1⟩
    rcases Option.isSome_iff_exists.mp h2 with ⟨n2, e2⟩
    have hrest : rest.length % 2 = 0 := by
      simp only [List.length_cons] at h; omega
    have ih := hexPairs_total rest hrest
      (fun c hc => hall c (by simp [List.mem_cons, hc]))
    rcases Option.isSome_iff_exists.mp ih with ⟨bs, e3⟩
    simp [hexPairs?, e1, e2, e3]

/-- C4 counterexample: a line that ends immediately after a FlowControl
type nibble does not parse successfully; the unconditional empty-payload
check reports a Data error. -/
theorem flow_empty_payload_not_ok :
    fromLine ("7E83".toList) .elevenBit false =
      .error ⟨"Malformed data", "7E83".toList, some .data⟩ := by rfl

/-- C4 (amended): an empty remaining payload is a Data error for all four
frame types, FlowControl included; a FlowControl frame whose remainder is
a nonempty even-length hex string parses successfully into a flow frame
carrying those bytes. -/
theorem empty_payload_data_error :
    (∀ (s : Char) (n : Nat), hexDigit? s = some n →
        fromLine ['7', 'E', '8', '0', s] .elevenBit false =
          .error ⟨"Malformed data", ['7', 'E', '8', '0', s], some .data⟩) ∧
    (∀ (c1 c2 c3 : Char) (n1 n2 n3 : Nat), hexDigit? c1 = some n1 →
        hexDigit? c2 = some n2 → hexDigit? c3 = some n3 →
        fromLine ['7', 'E', '8', '1', c1, c2, c3] .elevenBit false =
          .error ⟨"Malformed data", ['7', 'E', '8', '1', c1, c2, c3], some .data⟩) ∧
    (∀ (c : Char) (n : Nat), hexDigit? c = some n →
        fromLine ['7', 'E', '8', '2', c] .elevenBit false =
          .error ⟨"Malformed data", ['7', 'E', '8', '2', c], some .data⟩) ∧
    (fromLine ['7', 'E', '8', '3'] .elevenBit false =
      .error ⟨"Malformed data", ['7', 'E', '8', '3'], some .data⟩) ∧
    (∀ ds : List Char, ds ≠ [] → ds.length % 2 = 0 →
        (∀ c ∈ ds, (hexDigit? c).isSome) →
        (hexPairs? ds).isSome = true ∧
        ∀ bs, hexPairs? ds = some bs →
          fromLine (['7', 'E', '8', '3'] ++ ds) .elevenBit false =
            .ok ⟨.elevenBit, "7E8", none, .flowControlFrame, .flow, bs⟩) := by
  refine ⟨?_, ?_, ?_, by rfl, ?_⟩
  · intro s n hs
    have hws : s.isWhitespace = false := hexDigit_not_ws s n hs
    simp +decide [fromLine, parseCanIdentifier_cons3, parseHeader,
      dataFrameTypeFromByte, hs, hws, show hexDigit? '0' = some 0 from rfl]
  · intro c1 c2 c3 n1 n2 n3 h1 h2 h3
    have hw1 : c1.isWhitespace = false := hexDigit_not_ws c1 n1 h1
    have hw2 : c2.isWhitespace = false := hexDigit_not_ws c2 n2 h2
    have hw3 : c3.isWhitespace = false := hexDigit_not_ws c3 n3 h3
    simp +decide [fromLine, parseCanIdentifier_cons3, parseHeader,
      dataFrameTypeFromByte, h1, h2, h3, hw1, hw2, hw3,
      show hexDigit? '1' = some 1 from rfl]
  · intro c n hc
    have hws : c.isWhitespace = false := hexDigit_not_ws c n hc
    simp +decide [fromLine, parseCanIdentifier_cons3, parseHeader,
      dataFrameTypeFromByte, hc, hws, show hexDigit? '2' = some 2 from rfl]
  · intro ds hne hev hhex
    have hws : ∀ x ∈ ds, x.isWhitespace = false := by
      intro x hx
      rcases Option.isSome_iff_exists.mp (hhex x hx) with ⟨n, hn⟩
      exact hexDigit_not_ws x n hn
    refine ⟨hexPairs_total ds hev hhex, ?_⟩
    intro bs hbs
    have hfilter : (('7' :: 'E' :: '8' :: '3' :: ds)).filter
        (fun x => !x.isWhitespace) = '7' :: 'E' :: '8' :: '3' :: ds := by
      rw [List.filter_eq_self]
      intro a ha
      simp only [List.mem_cons] at ha
      rcases ha with rfl | rfl | rfl | rfl | h
      · decide
      · decide
      · decide
      · decide
      · simp [hws a h]
    have hnemp : ds.isEmpty = false := by
      rcases ds with _ | ⟨d, dd⟩
      · exact absurd rfl hne
      · rfl
    simp only [show (['7', 'E', '8', '3'] ++ ds : List Char) =
      '7' :: 'E' :: '8' :: '3' :: ds from rfl]
    simp +decide [fromLine, hfilter, parseCanIdentifier_cons3, parseHeader,
      dataFrameTypeFromByte, hnemp, hev, hbs, show hexDigit? '3' = some 3 from rfl]

theorem empty_payload_data_error_witness :
    (['0', '1'] : List Char) ≠ [] ∧ (['0', '1'] : List Char).length % 2 = 0 ∧
    hexPairs? ['0', '1'] = some [1] ∧
    fromLine (['7', 'E', '8', '3'] ++ ['0', '1']) .elevenBit false =
      .ok ⟨.elevenBit, "7E8", none, .flowControlFrame, .flow, [1]⟩ :=
  ⟨by decide, by decide, by decide,
    ((empty_payload_data_error.2.2.2.2 ['0', '1'] (by decide) (by decide)
      (by decide)).2 [1] (by decide))⟩

/-- C5 counterexample: a type nibble of 4 makes parsing fail, but the
raised error carries no part tag at all (part is None, not Type). -/
theorem invalid_type_nibble_untagged :
    fromLine ("7E84AB".toList) .elevenBit false =
      .error ⟨"Invalid data frame type", [], none⟩ := by rfl

/-- C5 (amended): for every whitespace-free 11-bit line whose frame-type
nibble is a hex digit other than 0-3, parsing fails with the
from_byte error, whose part field is None — not tagged with the Type
part (the Type tag is used only when the line is too short to contain a
type nibble). -/
theorem invalid_type_nibble_error (i1 i2 i3 c : Char) (rest : List Char) (b : Nat)
    (hws : ∀ x ∈ (i1 :: i2 :: i3 :: c :: rest), x.isWhitespace = false)
    (hc : hexDigit? c = some b) (hb : 4 ≤ b) :
    fromLine (i1 :: i2 :: i3 :: c :: rest) .elevenBit false =
      .error ⟨"Invalid data frame type", [], none⟩ := by
  have hfilter : ((i1 :: i2 :: i3 :: c :: rest)).filter
      (fun x => !x.isWhitespace) = i1 :: i2 :: i3 :: c :: rest :=
    List.filter_eq_self.mpr (fun a ha => by simp [hws a ha])
  have hft : dataFrameTypeFromByte b =
      .error ⟨"Invalid data frame type", [], none⟩ := by
    rw [dataFrameTypeFromByte, if_neg (by omega), if_neg (by omega),
      if_neg (by omega), if_neg (by omega)]
  simp [fromLine, hfilter, parseCanIdentifier_cons3, hc, hft]

theorem invalid_type_nibble_error_witness :
    hexDigit? '4' = some 4 ∧ 4 ≤ 4 ∧
    fromLine ['7', 'E', '8', '4', 'A', 'B'] .elevenBit false =
      .error ⟨"Invalid data frame type", [], none⟩ :=
  ⟨by decide, by decide,
    invalid_type_nibble_error '7' 'E' '8' '4' ['A', 'B'] 4
      (by decide) (by decide) (by decide)⟩

end OBDb
